import Mathlib

/-!
Verification of the aprs2traccar bridge (src/app/app.py) against its
natural-language specification.

The Python program is shallowly embedded:

* Python `dict` objects are association lists (`List (key, value)`), with
  `alistGet` / `alistSet` mirroring `d.get(k)` / `d[k] = v` (update in place
  keeps the entry position; a new key is appended, as in CPython).
* Python `str` is `List Char` where character-level reasoning is needed
  (dedup key parsing), `String` elsewhere.
* Timestamps (`datetime`) are `Int` seconds; `(a - b).total_seconds()` is
  plain subtraction.
* Fallible code (`IndexError`, `KeyError`, `TypeError`, `ValueError`) is
  embedded with `Option` / `Except`.
-/

set_option synthInstance.maxSize 4000

/-- `d.get(k)` on a Python dict: first entry with the given key. -/
def alistGet {α β : Type} [DecidableEq α] (k : α) : List (α × β) → Option β
  | [] => none
  | e :: rest => if k = e.1 then some e.2 else alistGet k rest

/-- `d[k] = v` on a Python dict: replace the first entry with key `k`
(keeping its position), or append a new entry. -/
def alistSet {α β : Type} [DecidableEq α] (k : α) (v : β) : List (α × β) → List (α × β)
  | [] => [(k, v)]
  | e :: rest => if k = e.1 then (k, v) :: rest else e :: alistSet k v rest

theorem alistGet_set_self {α β : Type} [DecidableEq α] (k : α) (v : β) (m : List (α × β)) :
    alistGet k (alistSet k v m) = some v := by
  induction m with
  | nil => simp [alistGet, alistSet]
  | cons e rest ih =>
    by_cases h : k = e.1 <;> simp [alistGet, alistSet, h, ih]

theorem alistGet_set_ne {α β : Type} [DecidableEq α] (q k : α) (v : β) (m : List (α × β))
    (h : q ≠ k) : alistGet q (alistSet k v m) = alistGet q m := by
  induction m with
  | nil => simp [alistGet, alistSet, h]
  | cons e rest ih =>
    by_cases hk : k = e.1
    · subst hk
      simp [alistGet, alistSet, h, ih]
    · by_cases hq : q = e.1 <;> simp [alistGet, alistSet, hk, hq, ih]

theorem mem_alistSet {α β : Type} [DecidableEq α] {x : α × β} {k : α} {v : β}
    {m : List (α × β)} (h : x ∈ alistSet k v m) : x = (k, v) ∨ x ∈ m := by
  induction m with
  | nil => simpa [alistSet] using h
  | cons e rest ih =>
    by_cases hk : k = e.1
    · rw [alistSet, if_pos hk] at h
      rcases List.mem_cons.mp h with h1 | h1
      · exact Or.inl h1
      · exact Or.inr (List.mem_cons.mpr (Or.inr h1))
    · rw [alistSet, if_neg hk] at h
      rcases List.mem_cons.mp h with h1 | h1
      · exact Or.inr (List.mem_cons.mpr (Or.inl h1))
      · rcases ih h1 with h2 | h2
        · exact Or.inl h2
        · exact Or.inr (List.mem_cons.mpr (Or.inr h2))

theorem alistSet_ne_nil {α β : Type} [DecidableEq α] (k : α) (v : β) (m : List (α × β)) :
    alistSet k v m ≠ [] := by
  cases m with
  | nil => simp [alistSet]
  | cons e rest =>
    by_cases h : k = e.1 <;> simp [alistSet, h]

theorem alistGet_mem {α β : Type} [DecidableEq α] {k : α} {v : β} {m : List (α × β)}
    (h : alistGet k m = some v) : (k, v) ∈ m := by
  induction m with
  | nil => simp [alistGet] at h
  | cons e rest ih =>
    by_cases hk : k = e.1
    · simp only [alistGet, if_pos hk] at h
      subst hk
      cases h
      exact List.mem_cons_self _ _
    · simp only [alistGet, if_neg hk] at h
      exact List.mem_cons_of_mem _ (ih h)

/-- Python `s.split(c)` on a one-character separator. -/
def splitOnChar (c : Char) : List Char → List (List Char)
  | [] => [[]]
  | x :: xs =>
    if x = c then [] :: splitOnChar c xs
    else
      match splitOnChar c xs with
      | [] => [[x]]
      | h :: t => (x :: h) :: t

theorem splitOnChar_ne_nil (c : Char) (l : List Char) : splitOnChar c l ≠ [] := by
  cases l with
  | nil => simp [splitOnChar]
  | cons x xs =>
    by_cases h : x = c
    · simp [splitOnChar, h]
    · simp only [splitOnChar, if_neg h]
      cases splitOnChar c xs <;> simp

theorem splitOnChar_not_mem (c : Char) (s : List Char) (h : c ∉ s) :
    splitOnChar c s = [s] := by
  induction s with
  | nil => rfl
  | cons x xs ih =>
    have hx : x ≠ c := fun hc => h (hc ▸ List.mem_cons_self x xs)
    have hxs : c ∉ xs := fun hc => h (List.mem_cons_of_mem _ hc)
    simp only [splitOnChar, if_neg hx, ih hxs]

theorem splitOnChar_append (c : Char) (s rest : List Char) (h : c ∉ s) :
    splitOnChar c (s ++ c :: rest) = s :: splitOnChar c rest := by
  induction s with
  | nil => simp [splitOnChar]
  | cons x xs ih =>
    have hx : x ≠ c := fun hc => h (hc ▸ List.mem_cons_self x xs)
    have hxs : c ∉ xs := fun hc => h (List.mem_cons_of_mem _ hc)
    simp only [List.cons_append, splitOnChar, if_neg hx, List.append_eq]
    rw [ih hxs]

theorem splitOnChar_head (c : Char) (l : List Char) :
    ∃ tl, splitOnChar c l = l.takeWhile (fun x => x != c) :: tl := by
  induction l with
  | nil => exact ⟨[], rfl⟩
  | cons x xs ih =>
    by_cases h : x = c
    · subst h
      refine ⟨splitOnChar x xs, ?_⟩
      simp [splitOnChar, List.takeWhile]
    · obtain ⟨tl, htl⟩ := ih
      refine ⟨tl, ?_⟩
      simp only [splitOnChar, if_neg h, htl, List.takeWhile]
      have : (x != c) = true := bne_iff_ne.mpr h
      simp [this]

theorem takeWhile_ne_append (c : Char) (s rest : List Char) (h : c ∉ s) :
    (s ++ rest).takeWhile (fun x => x != c) = s ++ rest.takeWhile (fun x => x != c) := by
  induction s with
  | nil => rfl
  | cons x xs ih =>
    have hx : (x != c) = true :=
      bne_iff_ne.mpr (fun hc => h (hc ▸ List.mem_cons_self x xs))
    have hxs : c ∉ xs := fun hc => h (List.mem_cons_of_mem _ hc)
    simp [List.takeWhile, hx, ih hxs]

theorem takeWhile_ne_stop (c : Char) (s rest : List Char) (h : c ∉ s) :
    (s ++ c :: rest).takeWhile (fun x => x != c) = s := by
  rw [takeWhile_ne_append c s _ h]
  simp [List.takeWhile]

theorem takeWhile_ne_all (c : Char) (s : List Char) (h : c ∉ s) :
    s.takeWhile (fun x => x != c) = s := by
  have := takeWhile_ne_append c s [] h
  simpa using this

/-- Lines 37 to 39 of app.py:
`callsign = payload.split('>')[0]`,
`payloadpath = payload.split('>')[1].split(':')[0]`,
`payloaddata = payload.split(':')[1]`.
Indexing `[1]` raises IndexError when the separator is missing, hence
`Option`; the path indexing (line 38) is evaluated before the payload
indexing (line 39), matching the Python failure order. -/
def parseKey (raw : List Char) : Option (List Char × List Char × List Char) :=
  match (splitOnChar '>' raw).get? 1 with
  | none => none
  | some seg =>
    match (splitOnChar ':' raw).get? 1 with
    | none => none
    | some pd =>
      some ((splitOnChar '>' raw).headD [], (splitOnChar ':' seg).headD [], pd)

/-- One relay-path map: Python dict from relay path to timestamp last seen. -/
abbrev PathMap := List (List Char × Int)

/-- One station bucket: Python dict from payload body to its path map. -/
abbrev Bucket := List (List Char × PathMap)

/-- `AprsPayloadHistory.hist`: station to bucket. -/
abbrev Hist := List (List Char × Bucket)

/-- Inner purge loop (lines 43 to 47): drop path entries older than 1800
seconds relative to `dt`. -/
def purgePathMap (dt : Int) (pm : PathMap) : PathMap :=
  pm.filter (fun e => decide (dt - e.2 ≤ 1800))

/-- Purge loop (lines 43 to 49): age out path entries, then drop payload
entries whose path map became empty. -/
def purgeBucket (dt : Int) (b : Bucket) : Bucket :=
  (b.map (fun e => (e.1, purgePathMap dt e.2))).filter (fun e => !e.2.isEmpty)

theorem mem_purgePathMap {dt : Int} {pm : PathMap} {qe : List Char × Int}
    (h : qe ∈ purgePathMap dt pm) : qe ∈ pm ∧ dt - qe.2 ≤ 1800 := by
  have := List.mem_filter.mp h
  exact ⟨this.1, by simpa using this.2⟩

theorem mem_purgeBucket {dt : Int} {b : Bucket} {pe : List Char × PathMap}
    (h : pe ∈ purgeBucket dt b) :
    pe.2 ≠ [] ∧ ∃ pm0, (pe.1, pm0) ∈ b ∧ pe.2 = purgePathMap dt pm0 := by
  have h' := List.mem_filter.mp h
  obtain ⟨e0, he0, heq⟩ := List.mem_map.mp h'.1
  constructor
  · have : (!pe.2.isEmpty) = true := h'.2
    simpa [List.isEmpty_iff] using this
  · exact ⟨e0.2, by rw [← heq] at *; exact ⟨he0, rfl⟩⟩

/-- Lines 52 to 63: decide the exit status and the dict the new entry goes
into. Python: `if not dict_path` (None or empty dict) is fresh; else if the
relay path is already present, not a duplicate and the path map is reset to
a fresh dict; else (path absent) it IS a duplicate and the existing path map
is kept (and later extended). -/
def dedupStatusPath (pp : List Char) (found : Option PathMap) : Bool × PathMap :=
  match found with
  | none => (false, [])
  | some dp =>
    if dp.isEmpty then (false, [])
    else if (alistGet pp dp).isSome then (false, [])
    else (true, dp)

/-- Body of `AprsPayloadHistory.duplicate` after key parsing (lines 40 to 69). -/
def duplicateCore (h : Hist) (cs pp pd : List Char) (dt : Int) : Bool × Hist :=
  let dict_callsign := purgeBucket dt ((alistGet cs h).getD [])
  let r := dedupStatusPath pp (alistGet pd dict_callsign)
  (r.1, alistSet cs (alistSet pd (alistSet pp dt r.2) dict_callsign) h)

/-- `AprsPayloadHistory.duplicate(payload, dt)` (lines 35 to 69) as a pure
state transformer; `none` models the IndexError raised by key parsing on a
message without a separator (raised before any state mutation). -/
def duplicate (h : Hist) (raw : List Char) (dt : Int) : Option (Bool × Hist) :=
  match parseKey raw with
  | none => none
  | some (cs, pp, pd) => some (duplicateCore h cs pp pd dt)

/-- Line 35: `def duplicate(self, payload, dt = datetime.now())`. In Python
the default expression is evaluated once, when the function object is
created (module import); every later call without an explicit `dt` reuses
that frozen value `defnTime`, not the wall clock at call time. -/
def duplicateDefaulted (defnTime : Int) (h : Hist) (raw : List Char)
    (dtArg : Option Int) : Option (Bool × Hist) :=
  duplicate h raw (dtArg.getD defnTime)

/-- The relay-path parse described by the claim: the substring between the
first occurrence of the '>' separator and the first ':' that follows it. -/
def claimedRelayPath (raw : List Char) : List Char :=
  ((raw.dropWhile (fun x => x != '>')).drop 1).takeWhile (fun x => x != ':')

/-- The payload-body parse described by the claim: the entire substring
after the first ':' separator. -/
def claimedPayloadBody (raw : List Char) : List Char :=
  (raw.dropWhile (fun x => x != ':')).drop 1

theorem parseKey_decomp (s p Z : List Char)
    (hs1 : '>' ∉ s) (hs2 : ':' ∉ s) (hp1 : '>' ∉ p) (hp2 : ':' ∉ p) :
    parseKey (s ++ '>' :: (p ++ ':' :: Z)) =
      ((splitOnChar ':' Z).get? 0).map (fun b0 => (s, p, b0)) := by
  have hgt : splitOnChar '>' (s ++ '>' :: (p ++ ':' :: Z))
      = s :: splitOnChar '>' (p ++ ':' :: Z) := splitOnChar_append _ _ _ hs1
  obtain ⟨tl, htl⟩ := splitOnChar_head '>' (p ++ ':' :: Z)
  have hsc : ':' ∉ s ++ '>' :: p := by
    intro hmem
    rcases List.mem_append.mp hmem with h1 | h1
    · exact hs2 h1
    · rcases List.mem_cons.mp h1 with h2 | h2
      · exact absurd h2 (by decide)
    
      · exact hp2 h2
  have hassoc : s ++ '>' :: (p ++ ':' :: Z) = (s ++ '>' :: p) ++ ':' :: Z := by
    simp
  have hcl : splitOnChar ':' (s ++ '>' :: (p ++ ':' :: Z))
      = (s ++ '>' :: p) :: splitOnChar ':' Z := by
    rw [hassoc]
    exact splitOnChar_append _ _ _ hsc
  have hseg : (p ++ ':' :: Z).takeWhile (fun x => x != '>')
      = p ++ ':' :: Z.takeWhile (fun x => x != '>') := by
    rw [takeWhile_ne_append '>' p _ hp1]
    simp [List.takeWhile]
  have hpath :
      (splitOnChar ':' ((p ++ ':' :: Z).takeWhile (fun x => x != '>'))).headD [] = p := by
    rw [hseg, splitOnChar_append ':' p _ hp2]
    simp
  unfold parseKey
  rw [hgt, htl, hcl]
  cases hz : (splitOnChar ':' Z)[0]? with
  | none => simp [hz]
  | some pd =>
    rw [List.headD_eq_head?] at hpath
    simp [hz, hpath]

/-- Claim C10, counterexample. On the raw message "A>B>C:x:y" the code
(line 38, split('>')[1].split(':')[0]; line 39, split(':')[1]) yields relay
path "B" and payload body "x", while the claim's reading (relay path =
substring between the first '>' and the first ':' that follows; payload
body = the entire substring after the first ':') yields "B>C" and "x:y".
The claim as stated is therefore false. -/
theorem parseKey_counterexample :
    parseKey ("A>B>C:x:y".data) = some ("A".data, "B".data, "x".data) ∧
    claimedRelayPath ("A>B>C:x:y".data) = "B>C".data ∧
    claimedPayloadBody ("A>B>C:x:y".data) = "x:y".data ∧
    ("B".data : List Char) ≠ "B>C".data ∧ ("x".data : List Char) ≠ "x:y".data := by
  decide

/-- Claim C10, amended. The dedup key is parsed as: stationId = substring
before the first '>'; relayPath = the segment after the first '>' cut at the
next '>' or ':' (not everything up to the first ':'); payloadBody = the
segment strictly between the first and second ':' (not the entire rest).
Formally: for a message of shape s ++ '>' ++ p ++ ':' ++ b, where s is
separator-free, p contains neither '>' nor ':' and b contains no ':', the
parse is (s, p, b), and it is unchanged by any ':'-prefixed continuation
after b (which the claim would have included in the payload body). -/
theorem parseKey_amended (s p b t : List Char)
    (hs1 : '>' ∉ s) (hs2 : ':' ∉ s) (hp1 : '>' ∉ p) (hp2 : ':' ∉ p) (hb : ':' ∉ b) :
    parseKey (s ++ '>' :: (p ++ ':' :: b)) = some (s, p, b) ∧
    parseKey (s ++ '>' :: (p ++ ':' :: (b ++ ':' :: t))) = some (s, p, b) := by
  constructor
  · rw [parseKey_decomp s p b hs1 hs2 hp1 hp2, splitOnChar_not_mem ':' b hb]
    rfl
  · rw [parseKey_decomp s p _ hs1 hs2 hp1 hp2, splitOnChar_append ':' b t hb]
    rfl

/-- Witness for parseKey_amended at a concrete input. -/
theorem parseKey_amended_witness :
    parseKey ("A>P:x".data) = some ("A".data, "P".data, "x".data) ∧
    parseKey ("A>P:x:y".data) = some ("A".data, "P".data, "x".data) := by
  have h := parseKey_amended ("A".data) ("P".data) ("x".data) ("y".data)
    (by decide) (by decide) (by decide) (by decide) (by decide)
  constructor
  · have e : ("A>P:x".data : List Char)
        = "A".data ++ '>' :: ("P".data ++ ':' :: "x".data) := by decide
    rw [e]
    exact h.1
  · have e : ("A>P:x:y".data : List Char)
        = "A".data ++ '>' :: ("P".data ++ ':' :: ("x".data ++ ':' :: "y".data)) := by
      decide
    rw [e]
    exact h.2

/-- Claim C1, counterexample. Feeding the same raw message twice in
immediate succession returns (false, false), not (false, true): on the
second call the relay path is already present in the payload's path map,
and lines 58 to 61 treat that case as NOT a duplicate (resetting the path
map), contrary to the claim. -/
theorem dedup_repeat_counterexample :
    duplicate [] ("A>P:x".data) 0
      = some (false, [("A".data, [("x".data, [("P".data, 0)])])]) ∧
    (duplicate [("A".data, [("x".data, [("P".data, 0)])])] ("A>P:x".data) 10).map Prod.fst
      = some false := by
  decide

/-- Claim C1, amended. Feeding the same raw message (same station, path and
payload) twice within the 1800-second window returns (false, false): the
second call finds the relay path present, refreshes the timestamp to now
and reports NOT duplicate; a third call after more than 1800 seconds of
simulated clock also returns false (the entry has been purged). -/
theorem dedup_repeat_amended (cs pp pd raw : List Char) (t1 t2 t3 : Int)
    (hparse : parseKey raw = some (cs, pp, pd))
    (h21 : t2 - t1 ≤ 1800) (h32 : t3 - t2 > 1800) :
    duplicate [] raw t1 = some (false, [(cs, [(pd, [(pp, t1)])])]) ∧
    duplicate [(cs, [(pd, [(pp, t1)])])] raw t2
      = some (false, [(cs, [(pd, [(pp, t2)])])]) ∧
    (duplicate [(cs, [(pd, [(pp, t2)])])] raw t3).map Prod.fst = some false := by
  have e21 : t2 ≤ 1800 + t1 := by omega
  have e32 : ¬t3 ≤ 1800 + t2 := by omega
  refine ⟨?_, ?_, ?_⟩
  · simp [duplicate, hparse, duplicateCore, dedupStatusPath, purgeBucket,
      purgePathMap, alistGet, alistSet]
  · simp [duplicate, hparse, duplicateCore, dedupStatusPath, purgeBucket,
      purgePathMap, alistGet, alistSet, e21]
  · simp [duplicate, hparse, duplicateCore, dedupStatusPath, purgeBucket,
      purgePathMap, alistGet, alistSet, e32]

/-- Witness for dedup_repeat_amended at a concrete input. -/
theorem dedup_repeat_amended_witness :
    duplicate [] ("A>P:x".data) 0
      = some (false, [("A".data, [("x".data, [("P".data, 0)])])]) ∧
    duplicate [("A".data, [("x".data, [("P".data, 0)])])] ("A>P:x".data) 10
      = some (false, [("A".data, [("x".data, [("P".data, 10)])])]) ∧
    (duplicate [("A".data, [("x".data, [("P".data, 10)])])] ("A>P:x".data) 2000).map
        Prod.fst = some false :=
  dedup_repeat_amended ("A".data) ("P".data) ("x".data) ("A>P:x".data) 0 10 2000
    (by decide) (by decide) (by decide)

/-- Claim C2, counterexample. A payload seen via relay path P1 and then,
within the window, via a different relay path P2 IS flagged as a duplicate
on the second occurrence (lines 62 to 63 return True when the specific path
is absent from an existing payload entry), so the A, B, A sequence opens
with (false, true), not (false, false). -/
theorem dedup_newpath_counterexample :
    duplicate [] ("A>P1:x".data) 0
      = some (false, [("A".data, [("x".data, [("P1".data, 0)])])]) ∧
    (duplicate [("A".data, [("x".data, [("P1".data, 0)])])] ("A>P2:x".data) 1).map
        Prod.fst = some true := by
  decide

/-- Claim C2, amended. Payload via path A, then path B, then path A again
(all within the 1800-second window) yields (false, true, false): a relay
path absent from the payload's path map IS the duplicate outcome, and on it
the path map is EXTENDED with the new path; a relay path present in the map
is NOT a duplicate, and on that outcome the path map is reset to the single
entry with the new timestamp. The explicit history values below exhibit the
extension after the second call and the reset after the third. -/
theorem dedup_aba_amended (cs pA pB pd rawA rawB : List Char) (t1 t2 t3 : Int)
    (hA : parseKey rawA = some (cs, pA, pd)) (hB : parseKey rawB = some (cs, pB, pd))
    (hne : pA ≠ pB)
    (h21 : t2 - t1 ≤ 1800) (h31 : t3 - t1 ≤ 1800) (h32 : t3 - t2 ≤ 1800) :
    duplicate [] rawA t1 = some (false, [(cs, [(pd, [(pA, t1)])])]) ∧
    duplicate [(cs, [(pd, [(pA, t1)])])] rawB t2
      = some (true, [(cs, [(pd, [(pA, t1), (pB, t2)])])]) ∧
    duplicate [(cs, [(pd, [(pA, t1), (pB, t2)])])] rawA t3
      = some (false, [(cs, [(pd, [(pA, t3)])])]) := by
  have hne' : pB ≠ pA := hne.symm
  have e21 : t2 ≤ 1800 + t1 := by omega
  have e31 : t3 ≤ 1800 + t1 := by omega
  have e32 : t3 ≤ 1800 + t2 := by omega
  refine ⟨?_, ?_, ?_⟩
  · simp [duplicate, hA, duplicateCore, dedupStatusPath, purgeBucket,
      purgePathMap, alistGet, alistSet]
  · simp [duplicate, hB, duplicateCore, dedupStatusPath, purgeBucket,
      purgePathMap, alistGet, alistSet, e21, hne']
  · simp [duplicate, hA, duplicateCore, dedupStatusPath, purgeBucket,
      purgePathMap, alistGet, alistSet, e31, e32, hne]

/-- Witness for dedup_aba_amended at a concrete input. -/
theorem dedup_aba_amended_witness :
    duplicate [] ("A>P1:x".data) 0
      = some (false, [("A".data, [("x".data, [("P1".data, 0)])])]) ∧
    duplicate [("A".data, [("x".data, [("P1".data, 0)])])] ("A>P2:x".data) 1
      = some (true, [("A".data, [("x".data, [("P1".data, 0), ("P2".data, 1)])])]) ∧
    duplicate [("A".data, [("x".data, [("P1".data, 0), ("P2".data, 1)])])]
        ("A>P1:x".data) 2
      = some (false, [("A".data, [("x".data, [("P1".data, 2)])])]) :=
  dedup_aba_amended ("A".data) ("P1".data) ("P2".data) ("x".data)
    ("A>P1:x".data) ("A>P2:x".data) 0 1 2
    (by decide) (by decide) (by decide) (by decide) (by decide) (by decide)

/-- Claim C4. Line 35 reads `def duplicate(self, payload, dt = datetime.now())`:
Python evaluates the default expression ONCE, when the module is imported,
so every call made without an explicit time argument (as rx_msg at line 149
does) reuses the import-time timestamp defnTime instead of the wall clock
current at the call. Two defaulted calls separated by real time both record
the same frozen timestamp 0 below: the stored timestamp does not advance,
contradicting the claim that each call records its own current wall-clock
time. -/
theorem duplicate_default_time_frozen :
    duplicateDefaulted 0 [] ("A>P:x".data) none
      = some (false, [("A".data, [("x".data, [("P".data, 0)])])]) ∧
    duplicateDefaulted 0 [("A".data, [("x".data, [("P".data, 0)])])] ("A>P:x".data) none
      = some (false, [("A".data, [("x".data, [("P".data, 0)])])]) := by
  decide

theorem dedupStatusPath_snd (pp : List Char) (f : Option PathMap) :
    (dedupStatusPath pp f).2 = [] ∨ f = some (dedupStatusPath pp f).2 := by
  cases f with
  | none => exact Or.inl rfl
  | some dp =>
    by_cases h1 : dp.isEmpty = true
    · simp [dedupStatusPath, h1]
    · by_cases h2 : (alistGet pp dp).isSome = true
      · simp [dedupStatusPath, h1, h2]
      · simp [dedupStatusPath, h1, h2]

/-- Claim C5. After any successful call to duplicate(raw, now) on a history
whose timestamps do not exceed now (the reachable states of a monotone
clock) and which has no empty station bucket, the accessed station's bucket
exists and is non-empty, every payload entry in it has a non-empty path map
(entries emptied by the purge were removed), every timestamp in it lies
within 1800 seconds of now, buckets of other stations are unchanged, and no
station maps to an empty bucket. -/
theorem duplicate_purge_invariant (h : Hist) (raw cs pp pd : List Char) (now : Int)
    (flag : Bool) (h' : Hist)
    (hparse : parseKey raw = some (cs, pp, pd))
    (hmono : ∀ e ∈ h, ∀ pe ∈ e.2, ∀ qe ∈ pe.2, qe.2 ≤ now)
    (hne : ∀ e ∈ h, e.2 ≠ [])
    (hdup : duplicate h raw now = some (flag, h')) :
    (∃ b, alistGet cs h' = some b ∧ b ≠ [] ∧
      ∀ pe ∈ b, pe.2 ≠ [] ∧ ∀ qe ∈ pe.2, now - qe.2 ≤ 1800 ∧ qe.2 ≤ now) ∧
    (∀ st, st ≠ cs → alistGet st h' = alistGet st h) ∧
    (∀ e ∈ h', e.2 ≠ []) := by
  have h2 : duplicate h raw now = some (duplicateCore h cs pp pd now) := by
    simp [duplicate, hparse]
  rw [h2] at hdup
  have h1 := Option.some.inj hdup
  have hh' : h' = alistSet cs (alistSet pd (alistSet pp now
      (dedupStatusPath pp (alistGet pd (purgeBucket now ((alistGet cs h).getD [])))).2)
      (purgeBucket now ((alistGet cs h).getD []))) h :=
    (congrArg Prod.snd h1).symm
  set C : Bucket := purgeBucket now ((alistGet cs h).getD []) with hC
  set R : PathMap := (dedupStatusPath pp (alistGet pd C)).2 with hR
  have hmemC : ∀ pe ∈ C, pe.2 ≠ [] ∧ ∀ qe ∈ pe.2, now - qe.2 ≤ 1800 ∧ qe.2 ≤ now := by
    intro pe hpe
    rw [hC] at hpe
    obtain ⟨hpene, pm0, hpm0mem, hpeeq⟩ := mem_purgeBucket hpe
    refine ⟨hpene, ?_⟩
    intro qe hqe
    rw [hpeeq] at hqe
    obtain ⟨hqem, hage⟩ := mem_purgePathMap hqe
    refine ⟨hage, ?_⟩
    cases hb0 : alistGet cs h with
    | none =>
      rw [hb0] at hpm0mem
      simp at hpm0mem
    | some b0 =>
      rw [hb0] at hpm0mem
      simp only [Option.getD_some] at hpm0mem
      exact hmono (cs, b0) (alistGet_mem hb0) (pe.1, pm0) hpm0mem qe hqem
  have hmemR : ∀ qe ∈ R, now - qe.2 ≤ 1800 ∧ qe.2 ≤ now := by
    intro qe hqe
    rcases dedupStatusPath_snd pp (alistGet pd C) with hnil | hsome
    · rw [hR, hnil] at hqe
      simp at hqe
    · have hmem : (pd, R) ∈ C := alistGet_mem (hR ▸ hsome)
      exact (hmemC (pd, R) hmem).2 qe hqe
  refine ⟨?_, ?_, ?_⟩
  · refine ⟨alistSet pd (alistSet pp now R) C, ?_, alistSet_ne_nil _ _ _, ?_⟩
    · rw [hh']
      exact alistGet_set_self _ _ _
    · intro pe hpe
      rcases mem_alistSet hpe with hpe1 | hpe2
      · subst hpe1
        refine ⟨alistSet_ne_nil _ _ _, ?_⟩
        intro qe hqe
        rcases mem_alistSet hqe with hqe1 | hqe2
        · subst hqe1
          exact ⟨by omega, le_refl now⟩
        · exact hmemR qe hqe2
      · exact hmemC pe hpe2
  · intro st hst
    rw [hh']
    exact alistGet_set_ne st cs _ h hst
  · intro e he
    rw [hh'] at he
    rcases mem_alistSet he with he1 | he2
    · rw [he1]
      exact alistSet_ne_nil _ _ _
    · exact hne e he2

/-- Witness for duplicate_purge_invariant at a concrete input: history with
an unrelated station B, message A with path P and payload x at now = 0. -/
theorem duplicate_purge_invariant_witness :
    (∃ b, alistGet ("A".data)
        [("B".data, [("y".data, [("Q".data, (-100 : Int))])]),
         ("A".data, [("x".data, [("P".data, (0 : Int))])])] = some b ∧ b ≠ [] ∧
      ∀ pe ∈ b, pe.2 ≠ [] ∧ ∀ qe ∈ pe.2, (0 : Int) - qe.2 ≤ 1800 ∧ qe.2 ≤ 0) ∧
    (∀ st, st ≠ "A".data →
      alistGet st
        [("B".data, [("y".data, [("Q".data, (-100 : Int))])]),
         ("A".data, [("x".data, [("P".data, (0 : Int))])])]
      = alistGet st [("B".data, [("y".data, [("Q".data, (-100 : Int))])])]) ∧
    (∀ e ∈ ([("B".data, [("y".data, [("Q".data, (-100 : Int))])]),
         ("A".data, [("x".data, [("P".data, (0 : Int))])])] : Hist), e.2 ≠ []) :=
  duplicate_purge_invariant [("B".data, [("y".data, [("Q".data, (-100 : Int))])])]
    ("A>P:x".data) ("A".data) ("P".data) ("x".data) 0 false
    [("B".data, [("y".data, [("Q".data, (-100 : Int))])]),
     ("A".data, [("x".data, [("P".data, (0 : Int))])])]
    (by decide) (by decide) (by decide) (by decide)

/-- Outcome of one `requests.post` call: an HTTP status, or an OSError at
transport level. -/
inductive PostOutcome
  | ok (status : Nat)
  | oserror
deriving DecidableEq

/-- What `tx_to_traccar` does with one response (lines 132 to 141):
status 400 logs a warning and raises ValueError(400) to the caller;
status above 299 (and not 400) logs an error and returns;
status at most 299 is success (debug log only);
an OSError from the POST is logged via logging.exception and swallowed. -/
inductive TxResult
  | raised400
  | errorLogged (status : Nat)
  | success (status : Nat)
  | exceptionLogged
deriving DecidableEq

/-- Response classification of `tx_to_traccar` (lines 132 to 141). -/
def classifyResponse : PostOutcome → TxResult
  | .ok s => if s = 400 then .raised400 else if s > 299 then .errorLogged s else .success s
  | .oserror => .exceptionLogged

/-- `AprsListenerThread.tx_to_traccar` (lines 127 to 141). The sequence of
outcomes of successive HTTP POSTs is the oracle `wire`; `i` counts POSTs
already made. One call performs exactly one POST (consumes index `i`,
returns `i + 1`): there is no retry on any outcome. -/
def tx_to_traccar (wire : Nat → PostOutcome) (i : Nat) : TxResult × Nat :=
  (classifyResponse (wire i), i + 1)

/-- The per-device send loop of rx_msg (lines 183 to 188): one
`tx_to_traccar` per query; a ValueError raised by tx_to_traccar (status
400) is caught, logged and the loop continues with the next device. -/
def runQueries (wire : Nat → PostOutcome) (i : Nat) : List String → List TxResult × Nat
  | [] => ([], i)
  | _ :: qs =>
    let c := (tx_to_traccar wire i).1
    let r := runQueries wire (i + 1) qs
    (c :: r.1, r.2)

theorem runQueries_count (wire : Nat → PostOutcome) (i : Nat) (qs : List String) :
    (runQueries wire i qs).2 = i + qs.length := by
  induction qs generalizing i with
  | nil => simp [runQueries]
  | cons q qs ih => simp [runQueries, ih]; omega

theorem runQueries_classes (wire : Nat → PostOutcome) (i : Nat) (qs : List String) :
    (runQueries wire i qs).1
      = (List.range qs.length).map (fun j => classifyResponse (wire (i + j))) := by
  induction qs generalizing i with
  | nil => simp [runQueries]
  | cons q qs ih =>
    simp only [runQueries, tx_to_traccar, List.length_cons, List.range_succ_eq_map,
      List.map_cons, List.map_map, ih]
    congr 1
    apply List.map_congr_left
    intro a _
    have e : i + 1 + a = i + (a + 1) := by omega
    simp [Function.comp, e]

/-- The position-ambiguity table of `gps_accuracy` (lines 110 to 114),
with the Python float fractions idealized as rationals. -/
def pos_a_map (n : Int) : Option ℚ :=
  if n = 0 then some 0
  else if n = 1 then some (1 / 600)
  else if n = 2 then some (1 / 60)
  else if n = 3 then some (1 / 6)
  else if n = 4 then some 1
  else none

/-- `AprsListenerThread.gps_accuracy` (lines 108 to 125). The geodesic
distance computed by the external geopy library on floats is abstracted as
the parameter `dist` (meters); `round` idealizes Python's float rounding.
A posambiguity outside the table raises ValueError, hence `Except`. -/
def gps_accuracy (dist : ℚ × ℚ → ℚ × ℚ → ℚ) (gps : ℚ × ℚ) (posambiguity : Int) :
    Except String Int :=
  match pos_a_map posambiguity with
  | some degrees => .ok (round (dist gps (gps.1, gps.2 + degrees)))
  | none => .error "APRS position ambiguity must be 0-4"

/-- A decoded APRS record as consumed by rx_msg. Fields indexed
unconditionally in the code are mandatory; fields guarded by `in msg` are
`Option`. `from` is a Lean keyword, hence `fromCall`. Latitude and
longitude are rationals (idealizing floats). -/
structure Msg where
  format : String
  raw : List Char
  latitude : ℚ
  longitude : ℚ
  posambiguity : Option Int
  altitude : Option String
  speed : Option String
  course : Option String
  fromCall : Option String
  toCall : Option String
  via : Option String
  symbol : Option String
  symbol_table : Option String
  comment : Option String
  path : Option (List String)

/-- Python exceptions that can escape rx_msg. -/
inductive PyErr
  | indexError
  | keyError
  | typeError
deriving DecidableEq

/-- Line 25: accepted position formats. -/
def MSG_FORMATS : List String := ["compressed", "uncompressed", "mic-e"]

/-- Lines 157 to 162: the accuracy contribution to the query string; on
ValueError from gps_accuracy a warning is logged and the field is omitted. -/
def accuracyPart (dist : ℚ × ℚ → ℚ × ℚ → ℚ) (msg : Msg) : String :=
  match msg.posambiguity with
  | none => ""
  | some n =>
    match gps_accuracy dist (msg.latitude, msg.longitude) n with
    | .ok a => "&accuracy=" ++ toString a
    | .error _ => ""

/-- One optional attribute rendered into the query string. -/
def optAttr (name : String) (v : Option String) : String :=
  match v with
  | some x => "&" ++ name ++ "=" ++ x
  | none => ""

/-- One optional APRS passthrough attribute (lines 170 to 172). -/
def optAprs (name : String) (v : Option String) : String :=
  match v with
  | some x => "&APRS_" ++ name ++ "=" ++ x
  | none => ""

/-- `AprsListenerThread.rx_msg` (lines 143 to 188). The emoji table lives
in a separate module (external collaborator per the spec) and is abstracted
as `emoji`. Returns the new dedup history, the classified uplink calls and
the next POST index; errors model the exceptions Python would raise:
IndexError from dedup key parsing on a malformed raw message, KeyError from
the unconditional indexing of symbol_table and symbol (line 180) or of
`from` (line 182), and TypeError from iterating `None` when `from` is
absent from the filter dict (line 182 to 183). -/
def rx_msg (dist : ℚ × ℚ → ℚ × ℚ → ℚ) (emoji : String → String → String)
    (aprs_filter_dict : List (String × List String)) (hist : Hist)
    (wire : Nat → PostOutcome) (posIdx : Nat) (msg : Msg) (dt : Int) :
    Except PyErr (Hist × List TxResult × Nat) :=
  if MSG_FORMATS.contains msg.format then
    match duplicate hist msg.raw dt with
    | none => .error .indexError
    | some (true, h) => .ok (h, [], posIdx)
    | some (false, h) =>
      let query_string :=
        accuracyPart dist msg
          ++ optAttr "altitude" msg.altitude
          ++ optAttr "speed" msg.speed
          ++ optAttr "bearing" msg.course
          ++ optAprs "from" msg.fromCall
          ++ optAprs "to" msg.toCall
          ++ optAprs "via" msg.via
          ++ optAprs "symbol" msg.symbol
          ++ optAprs "symbol_table" msg.symbol_table
          ++ optAprs "comment" msg.comment
          ++ (match msg.path with
              | some ps => "&APRS_path=" ++ String.intercalate "," ps
              | none => "")
      match msg.symbol_table, msg.symbol with
      | some st, some sym =>
        let qs2 := query_string ++ "&APRS_icon=" ++ emoji st sym
        match msg.fromCall with
        | none => .error .keyError
        | some f =>
          match alistGet f aprs_filter_dict with
          | none => .error .typeError
          | some dev_ids =>
            let queries := dev_ids.map (fun dev_id =>
              "id=" ++ dev_id ++ "&lat=" ++ toString msg.latitude
                ++ "&lon=" ++ toString msg.longitude ++ qs2)
            let r := runQueries wire posIdx queries
            .ok (h, r.1, r.2)
      | _, _ => .error .keyError
  else .ok (hist, [], posIdx)

/-- Claim C9. Per uplink delivery exactly one HTTP POST is made and no
outcome triggers a retry: tx_to_traccar consumes exactly one wire index
whatever the response. Classification: status 400 raises the recoverable
ValueError surfaced to the caller; status above 299 and not 400 is logged
as an error, not raised; status at most 299 is success; a transport OSError
is logged as an exception, not raised. The caller loop (runQueries) sends
every remaining query even after a raised 400 (each query consumes exactly
its own wire index), so the listener continues without crashing. -/
theorem uplink_classification (wire : Nat → PostOutcome) (i : Nat) (queries : List String) :
    tx_to_traccar wire i = (classifyResponse (wire i), i + 1) ∧
    classifyResponse (.ok 400) = .raised400 ∧
    (∀ s : Nat, s > 299 → s ≠ 400 → classifyResponse (.ok s) = .errorLogged s) ∧
    (∀ s : Nat, s ≤ 299 → classifyResponse (.ok s) = .success s) ∧
    classifyResponse .oserror = .exceptionLogged ∧
    (runQueries wire i queries).2 = i + queries.length ∧
    (runQueries wire i queries).1
      = (List.range queries.length).map (fun j => classifyResponse (wire (i + j))) := by
  refine ⟨rfl, rfl, ?_, ?_, rfl, runQueries_count wire i queries,
    runQueries_classes wire i queries⟩
  · intro s hs hne
    simp [classifyResponse, hne, hs]
  · intro s hs
    have h1 : s ≠ 400 := by omega
    have h2 : ¬s > 299 := by omega
    simp [classifyResponse, h1, h2]

/-- Witness for uplink_classification at concrete statuses and a concrete
two-query delivery. -/
theorem uplink_classification_witness :
    classifyResponse (PostOutcome.ok 500) = TxResult.errorLogged 500 ∧
    classifyResponse (PostOutcome.ok 200) = TxResult.success 200 ∧
    (runQueries (fun _ => PostOutcome.ok 400) 0 ["a", "b"]).2 = 0 + 2 := by
  have h := uplink_classification (fun _ => PostOutcome.ok 400) 0 ["a", "b"]
  exact ⟨h.2.2.1 500 (by decide) (by decide), h.2.2.2.1 200 (by decide),
    h.2.2.2.2.2.1⟩

/-- Claim C8. gps_accuracy fails (raises ValueError) exactly when the
posambiguity code is outside 0..4; inside the set it returns the distance
between (lat, lon) and (lat, lon + degrees) rounded to the nearest integer,
with the degrees table 0, 1/600, 1/60, 1/6, 1; and on failure the caller
rx_msg behaves exactly as if the posambiguity field were absent: it logs a
warning, omits only the accuracy field and still forwards the record. The
external geopy distance is the abstract parameter dist. -/
theorem gps_accuracy_spec (dist : ℚ × ℚ → ℚ × ℚ → ℚ) (gps : ℚ × ℚ) (n : Int) :
    ((∃ e, gps_accuracy dist gps n = .error e) ↔
      ¬(n = 0 ∨ n = 1 ∨ n = 2 ∨ n = 3 ∨ n = 4)) ∧
    pos_a_map 0 = some 0 ∧ pos_a_map 1 = some (1 / 600) ∧
    pos_a_map 2 = some (1 / 60) ∧ pos_a_map 3 = some (1 / 6) ∧
    pos_a_map 4 = some 1 ∧
    (∀ d, pos_a_map n = some d →
      gps_accuracy dist gps n = .ok (round (dist gps (gps.1, gps.2 + d)))) ∧
    (∀ (emoji : String → String → String) fd hist wire i (msg : Msg) dt,
      msg.posambiguity = some n → ¬(n = 0 ∨ n = 1 ∨ n = 2 ∨ n = 3 ∨ n = 4) →
      rx_msg dist emoji fd hist wire i msg dt
        = rx_msg dist emoji fd hist wire i { msg with posambiguity := none } dt) := by
  have hnone : ∀ hc : ¬(n = 0 ∨ n = 1 ∨ n = 2 ∨ n = 3 ∨ n = 4), pos_a_map n = none := by
    intro hc
    have h0 : n ≠ 0 := fun h => hc (Or.inl h)
    have h1 : n ≠ 1 := fun h => hc (Or.inr (Or.inl h))
    have h2 : n ≠ 2 := fun h => hc (Or.inr (Or.inr (Or.inl h)))
    have h3 : n ≠ 3 := fun h => hc (Or.inr (Or.inr (Or.inr (Or.inl h))))
    have h4 : n ≠ 4 := fun h => hc (Or.inr (Or.inr (Or.inr (Or.inr h))))
    simp [pos_a_map, h0, h1, h2, h3, h4]
  refine ⟨?_, rfl, rfl, rfl, rfl, rfl, ?_, ?_⟩
  · constructor
    · rintro ⟨e, he⟩ hc
      rcases hc with h | h | h | h | h <;> subst h <;>
        simp [gps_accuracy, pos_a_map] at he
    · intro hc
      exact ⟨"APRS position ambiguity must be 0-4", by simp [gps_accuracy, hnone hc]⟩
  · intro d hd
    simp [gps_accuracy, hd]
  · intro emoji fd hist wire i msg dt hpa hc
    have hacc : accuracyPart dist msg = "" := by
      simp [accuracyPart, hpa, gps_accuracy, hnone hc]
    have hacc2 : accuracyPart dist { msg with posambiguity := none } = "" := by
      simp [accuracyPart]
    simp only [rx_msg, hacc, hacc2]

/-- Witness for gps_accuracy_spec: code 7 fails, code 2 returns the rounded
distance for 1/60 of a degree. -/
theorem gps_accuracy_spec_witness :
    (∃ e, gps_accuracy (fun _ _ => (37 : ℚ)) ((0 : ℚ), (0 : ℚ)) 7 = .error e) ∧
    gps_accuracy (fun _ _ => (37 : ℚ)) ((0 : ℚ), (0 : ℚ)) 2
      = .ok (round ((37 : ℚ))) := by
  have h := gps_accuracy_spec (fun _ _ => (37 : ℚ)) ((0 : ℚ), (0 : ℚ)) 7
  have h2 := gps_accuracy_spec (fun _ _ => (37 : ℚ)) ((0 : ℚ), (0 : ℚ)) 2
  exact ⟨h.1.mpr (by decide), h2.2.2.2.2.2.2.1 (1 / 60) (by norm_num [pos_a_map])⟩

/-- Claim C3. A record with an accepted format that is not a duplicate,
whose station is absent from the filter dict, is NOT silently dropped:
line 182 fetches dev_ids with dict.get (None when absent) and line 183
iterates it, so Python raises TypeError inside the consumer callback. No
uplink call is made (the error precedes the send loop), but rx_msg does not
complete cleanly, contradicting the claim. -/
theorem rx_msg_unknown_station_raises :
    rx_msg (fun _ _ => 0) (fun _ _ => "") [] []
      (fun _ => PostOutcome.ok 200) 0
      { format := "compressed", raw := "N0CALL>APRS:x".data, latitude := 45,
        longitude := -93, posambiguity := none, altitude := none, speed := none,
        course := none, fromCall := some "N0CALL", toCall := none, via := none,
        symbol := some "O", symbol_table := some "/", comment := none,
        path := none } 0
      = .error .typeError := by
  rfl

/-- ASCII uppercase letter, the character class A-Z of the regex. -/
def isUpperAZ (c : Char) : Bool := 'A' ≤ c && c ≤ 'Z'

/-- ASCII digit, the character class 0-9 of the regex. -/
def isDigit09 (c : Char) : Bool := '0' ≤ c && c ≤ '9'

/-- Python `value.strip()`: drop leading and trailing whitespace. -/
def pyStrip (l : List Char) : List Char :=
  ((l.dropWhile Char.isWhitespace).reverse.dropWhile Char.isWhitespace).reverse

/-- Line 223: `callsign = value.upper().strip()` (uppercase, then trim). -/
def normCallsign (v : String) : String :=
  String.mk (pyStrip (v.data.map Char.toUpper))

/-- Line 224: the anchored callsign grammar
`[A-Z]` one or two, one digit, `[A-Z]` one to three, optionally a dash
followed by one or two of `[A-Z0-9]`. The matcher is deterministic because
the classes at each boundary are disjoint: a run of uppercase letters can
only belong to the letter block it starts in, so taking maximal runs is
equivalent to the regex acceptance. -/
def callsignValid (s : String) : Bool :=
  let l := s.data
  let us := l.takeWhile isUpperAZ
  let r1 := l.dropWhile isUpperAZ
  decide (1 ≤ us.length) && decide (us.length ≤ 2) &&
  (match r1 with
   | [] => false
   | d :: r2 =>
     isDigit09 d &&
     (let vs := r2.takeWhile isUpperAZ
      let r3 := r2.dropWhile isUpperAZ
      decide (1 ≤ vs.length) && decide (vs.length ≤ 3) &&
      (match r3 with
       | [] => true
       | c :: tl =>
         (c == '-') && decide (1 ≤ tl.length) && decide (tl.length ≤ 2) &&
           tl.all (fun x => isUpperAZ x || isDigit09 x))))

/-- Line 222: `re.search("^" + keyword + "[0-9]{0,1}$", att.lower())`.
The keyword is spliced into the pattern as a literal (the default "aprs"
has no regex metacharacters): the lowercased attribute name must be the
keyword, optionally followed by a single digit. -/
def keyMatch (kw att : String) : Bool :=
  let a := att.data.map Char.toLower
  let k := kw.data
  a == k ||
    (a.dropLast == k &&
      (match a.getLast? with
       | some d => isDigit09 d
       | none => false))

/-- One record of the `/api/devices` registry response. -/
structure Device where
  disabled : Bool
  attributes : List (String × String)
  uniqueId : String

/-- The derived station filter: callsign to list of device unique ids. -/
abbrev FilterMap := List (String × List String)

/-- Lines 221 to 226, one attribute of one device: a matching key whose
value passes the callsign grammar appends the device's uniqueId to that
callsign's list. -/
def addAttr (kw uid : String) (fd : FilterMap) (av : String × String) : FilterMap :=
  if keyMatch kw av.1 then
    (let callsign := normCallsign av.2
     if callsignValid callsign then
       alistSet callsign ((alistGet callsign fd).getD [] ++ [uid]) fd
     else fd)
  else fd

/-- Lines 218 to 226, one device: disabled devices contribute nothing. -/
def addDevice (kw : String) (fd : FilterMap) (j : Device) : FilterMap :=
  if !j.disabled then j.attributes.foldl (addAttr kw j.uniqueId) fd else fd

/-- Lines 215 to 226: the filter map derived on one reconciliation poll. -/
def deriveFilter (kw : String) (devices : List Device) : FilterMap :=
  devices.foldl (addDevice kw) []

/-- The claim's wording of the derivation, for comparison: for every
non-disabled device record, every attribute whose key matches the keyword
pattern and whose normalized value passes the callsign grammar and equals
the callsign c contributes the device's uniqueId, in order. -/
def specDerivedIds (kw : String) (devices : List Device) (c : String) : List String :=
  (devices.filter (fun j => !j.disabled)).flatMap (fun j =>
    (j.attributes.filter (fun av =>
      keyMatch kw av.1 && callsignValid (normCallsign av.2)
        && (normCallsign av.2 == c))).map (fun _ => j.uniqueId))

theorem foldl_addAttr_get (kw uid c : String) (atts : List (String × String)) :
    ∀ fd : FilterMap,
    (alistGet c (atts.foldl (addAttr kw uid) fd)).getD []
      = (alistGet c fd).getD []
        ++ (atts.filter (fun av =>
            keyMatch kw av.1 && callsignValid (normCallsign av.2)
              && (normCallsign av.2 == c))).map (fun _ => uid) := by
  induction atts with
  | nil =>
    intro fd
    simp
  | cons av atts ih =>
    intro fd
    rw [List.foldl_cons, List.filter_cons]
    by_cases h1 : keyMatch kw av.1 = true
    · by_cases h2 : callsignValid (normCallsign av.2) = true
      · by_cases h3 : normCallsign av.2 = c
        · have h2' : callsignValid c = true := by
            rw [← h3]
            exact h2
          have hp : (keyMatch kw av.1 && callsignValid (normCallsign av.2)
              && (normCallsign av.2 == c)) = true := by
            simp [h1, h3, h2']
          have hstep : addAttr kw uid fd av
              = alistSet c ((alistGet c fd).getD [] ++ [uid]) fd := by
            simp [addAttr, h1, h3, h2']
          rw [hstep, ih]
          simp only [hp, if_pos, List.map_cons, alistGet_set_self, Option.getD_some]
          simp
        · have h3' : c ≠ normCallsign av.2 := fun hh => h3 hh.symm
          have hp : (keyMatch kw av.1 && callsignValid (normCallsign av.2)
              && (normCallsign av.2 == c)) = false := by
            simp [h3]
          have hstep : addAttr kw uid fd av
              = alistSet (normCallsign av.2)
                  ((alistGet (normCallsign av.2) fd).getD [] ++ [uid]) fd := by
            simp [addAttr, h1, h2]
          rw [hstep, ih]
          simp only [hp, Bool.false_eq_true, if_false, alistGet_set_ne c _ _ _ h3']
      · have hp : (keyMatch kw av.1 && callsignValid (normCallsign av.2)
            && (normCallsign av.2 == c)) = false := by
          simp [h2]
        have hstep : addAttr kw uid fd av = fd := by
          simp [addAttr, h1, h2]
        rw [hstep, ih]
        simp only [hp, Bool.false_eq_true, if_false]
    · have hp : (keyMatch kw av.1 && callsignValid (normCallsign av.2)
          && (normCallsign av.2 == c)) = false := by
        simp [h1]
      have hstep : addAttr kw uid fd av = fd := by
        simp [addAttr, h1]
      rw [hstep, ih]
      simp only [hp, Bool.false_eq_true, if_false]

theorem foldl_addDevice_get (kw c : String) (ds : List Device) :
    ∀ fd : FilterMap,
    (alistGet c (ds.foldl (addDevice kw) fd)).getD []
      = (alistGet c fd).getD [] ++ specDerivedIds kw ds c := by
  induction ds with
  | nil =>
    intro fd
    simp [specDerivedIds]
  | cons j ds ih =>
    intro fd
    rw [List.foldl_cons]
    by_cases hd : j.disabled = true
    · have hstep : addDevice kw fd j = fd := by
        simp [addDevice, hd]
      have hspec : specDerivedIds kw (j :: ds) c = specDerivedIds kw ds c := by
        simp [specDerivedIds, List.filter_cons, hd]
      rw [hstep, ih, hspec]
    · have hstep : addDevice kw fd j = j.attributes.foldl (addAttr kw j.uniqueId) fd := by
        simp [addDevice, hd]
      have hspec : specDerivedIds kw (j :: ds) c
          = (j.attributes.filter (fun av =>
              keyMatch kw av.1 && callsignValid (normCallsign av.2)
                && (normCallsign av.2 == c))).map (fun _ => j.uniqueId)
            ++ specDerivedIds kw ds c := by
        simp [specDerivedIds, List.filter_cons, hd]
      rw [hstep, ih, hspec, foldl_addAttr_get]
      simp [List.append_assoc]

/-- Claim C7. The filter map derived by a poll agrees, for every callsign
c, with the claim's description specDerivedIds: for every non-disabled
device record, every attribute whose key matches the keyword pattern
(case-insensitively, optionally suffixed by one digit) and whose value,
uppercased and trimmed, passes the callsign grammar, contributes the
device's uniqueId appended to that callsign's list; disabled devices and
failing values contribute nothing, and two enabled devices with the same
callsign both appear in that callsign's list, in registry order. -/
theorem deriveFilter_matches_spec (kw : String) (devices : List Device) (c : String) :
    (alistGet c (deriveFilter kw devices)).getD [] = specDerivedIds kw devices c := by
  have h := foldl_addDevice_get kw c devices []
  simpa [deriveFilter, alistGet] using h

/-- The Listener as the Reconciler sees it: a thread handle whose
`is_alive()` it can query. -/
structure ListenerHandle where
  alive : Bool
deriving DecidableEq

/-- The externally visible effect of one poll tick on the Listener. -/
inductive PollAction
  | noAction
  | startListener (m : FilterMap)
  | setFilter (m : FilterMap)
  | stopListener
deriving DecidableEq

/-- The fields of APRS2Traccar that poll reads and writes: `self.ALT`
(None or a thread handle) and `self.lastfilterdict`. -/
structure A2TState where
  ALT : Option ListenerHandle
  lastfilterdict : FilterMap
deriving DecidableEq

/-- Line 231: `self.ALT is None or not self.ALT.is_alive()`, negated. -/
def listenerAlive (st : A2TState) : Bool :=
  match st.ALT with
  | none => false
  | some l => l.alive

/-- Python dict equality (line 239, `filterdict != self.lastfilterdict`,
negated): same keys with the same values, irrespective of entry order.
Keys produced by deriveFilter are unique, so comparing first lookups in
both directions is dict equality. -/
def dictEq (a b : FilterMap) : Bool :=
  a.all (fun kv => decide (alistGet kv.1 b = some kv.2)) &&
    b.all (fun kv => decide (alistGet kv.1 a = some kv.2))

/-- `APRS2Traccar.poll` (lines 209 to 247), with the registry HTTP call
abstracted as its status and decoded device list. A non-200 status returns
early (line 213) with no state change; otherwise the filter map is derived,
the Listener is started, reconfigured, stopped or left alone, and
`lastfilterdict` is set to the new map in every branch (line 247). A
freshly started thread handle is alive. -/
def poll (kw : String) (registryStatus : Nat) (devices : List Device)
    (st : A2TState) : PollAction × A2TState :=
  if registryStatus ≠ 200 then (.noAction, st)
  else
    let filterdict := deriveFilter kw devices
    if !listenerAlive st then
      if filterdict ≠ [] then
        (.startListener filterdict, ⟨some ⟨true⟩, filterdict⟩)
      else (.noAction, ⟨st.ALT, filterdict⟩)
    else
      if filterdict ≠ [] then
        if !dictEq filterdict st.lastfilterdict then
          (.setFilter filterdict, ⟨st.ALT, filterdict⟩)
        else (.noAction, ⟨st.ALT, filterdict⟩)
      else (.stopListener, ⟨none, filterdict⟩)

/-- Claim C6. On a poll tick with a 200 registry response and derived map
m: Listener absent or dead and m non-empty starts a new Listener with m
(leaving it alive); Listener alive, m non-empty and different from the
previous tick's map (as a dict) issues setFilter m without reconnecting;
Listener alive and m empty stops and clears the Listener; Listener alive
and m unchanged issues no call; and in every branch m is stored as the
comparison baseline for the next tick. -/
theorem poll_transitions (kw : String) (devices : List Device) (st : A2TState)
    (m : FilterMap) (hm : m = deriveFilter kw devices) :
    (listenerAlive st = false → m ≠ [] →
      (poll kw 200 devices st).1 = .startListener m ∧
      listenerAlive (poll kw 200 devices st).2 = true) ∧
    (listenerAlive st = true → m ≠ [] → dictEq m st.lastfilterdict = false →
      (poll kw 200 devices st).1 = .setFilter m) ∧
    (listenerAlive st = true → m = [] →
      (poll kw 200 devices st).1 = .stopListener ∧
      (poll kw 200 devices st).2.ALT = none) ∧
    (listenerAlive st = true → m ≠ [] → dictEq m st.lastfilterdict = true →
      (poll kw 200 devices st).1 = .noAction) ∧
    (poll kw 200 devices st).2.lastfilterdict = m := by
  subst hm
  obtain ⟨alt, last⟩ := st
  cases alt with
  | none =>
    by_cases he : deriveFilter kw devices = [] <;>
      refine ⟨?_, ?_, ?_, ?_, ?_⟩ <;>
        simp [poll, listenerAlive, he]
  | some l =>
    obtain ⟨la⟩ := l
    cases la with
    | false =>
      by_cases he : deriveFilter kw devices = [] <;>
        refine ⟨?_, ?_, ?_, ?_, ?_⟩ <;>
          simp [poll, listenerAlive, he]
    | true =>
      by_cases he : deriveFilter kw devices = []
      · refine ⟨?_, ?_, ?_, ?_, ?_⟩ <;>
          simp [poll, listenerAlive, he]
      · by_cases hq : dictEq (deriveFilter kw devices) last = true
        · refine ⟨?_, ?_, ?_, ?_, ?_⟩ <;>
            simp [poll, listenerAlive, he, hq]
        · have hq' : dictEq (deriveFilter kw devices) last = false := by
            revert hq
            cases dictEq (deriveFilter kw devices) last <;> simp
          refine ⟨?_, ?_, ?_, ?_, ?_⟩ <;>
            simp [poll, listenerAlive, he, hq']

/-- Witness for poll_transitions: a live Listener, a previous empty map and
one enabled device carrying attribute aprs = AB1CDE on device 42, so the
new map differs and setFilter is issued; the new map becomes the stored
baseline. -/
theorem poll_transitions_witness :
    (poll "aprs" 200 [⟨false, [("aprs", "AB1CDE")], "42"⟩]
        ⟨some ⟨true⟩, []⟩).1 = PollAction.setFilter [("AB1CDE", ["42"])] ∧
    (poll "aprs" 200 [⟨false, [("aprs", "AB1CDE")], "42"⟩]
        ⟨some ⟨true⟩, []⟩).2.lastfilterdict = [("AB1CDE", ["42"])] := by
  have h := poll_transitions "aprs" [⟨false, [("aprs", "AB1CDE")], "42"⟩]
    ⟨some ⟨true⟩, []⟩ [("AB1CDE", ["42"])] (by decide)
  exact ⟨h.2.1 (by decide) (by decide) (by decide), h.2.2.2.2⟩
